import Mathlib

/-!
# Verification of the cratuity TUI application core

Shallow embedding of the application state machine of `src/app.rs` and the
arithmetic helper `ceil_div` of `src/main.rs`, together with proofs of the
testable properties stated in the specification.

Modelling conventions:
* Rust `u32` / `u64` / `usize` values are embedded as `Nat`.  Arithmetic that
  Rust checks for overflow (`self.page += 1` on `u32`, `a + b` on `u32` in
  `ceil_div`, `crates.len() - 1` on `usize`) is modelled as a partial
  operation: an overflowing/underflowing step returns `none`, matching Rust's
  checked-arithmetic (overflow-is-an-error) semantics.  `u64` ticks use
  `wrapping_add`, which is explicit wrapping, embedded as `% 2 ^ 64`.
* A fallible step (a Rust panic: `unwrap` on a missing field, an
  out-of-bounds index, checked overflow) returns `none`.
* `App::await_input` both mutates the state and may call
  `CrateSearcher::search_sorted`; the embedding returns the updated state
  together with the list of search requests issued during the step.  The
  channel receive timeout leaves the state untouched and is not modelled as
  an event.
* The fields `input_rx` and `client` of `App` are a channel endpoint and an
  HTTP client; they carry no state the specification's claims mention and
  are dropped from the embedding.
-/

/-- The size of the `u32` value space: a checked `u32` addition whose
mathematical result is not below this bound overflows. -/
def u32Size : Nat := 2 ^ 32

/-- The size of the `u64` value space, used by `u64::wrapping_add`. -/
def u64Size : Nat := 2 ^ 64

/-- The sort orders of `CratesSort` (module `crates_io`).  The five variants
are enumerated verbatim in `SortingField::from` (src/app.rs lines 33-37):
`Relevance`, `AllTimeDownload`, `RecentDownload`, `RecentUpdate`,
`NewlyAdded`. -/
inductive CratesSort where
  | Relevance
  | AllTimeDownload
  | RecentDownload
  | RecentUpdate
  | NewlyAdded
deriving DecidableEq, BEq, Repr

/-- Modelled from the spec: each `SortOrder` "has a stable display label"
(the `Display` impl of `CratesSort` lives in `src/crates_io.rs`, which is not
part of the sources).  No claim depends on the label text. -/
def CratesSort.label : CratesSort → String
  | .Relevance => "Relevance"
  | .AllTimeDownload => "All Time Downloads"
  | .RecentDownload => "Recent Downloads"
  | .RecentUpdate => "Recently Updated"
  | .NewlyAdded => "Newly Added"

/-- Modelled from the spec: a `PackageRecord` / `CrateSearch` registry entry
("name, version, description, download counts"); the struct itself lives in
`src/crates_io.rs`, which is not part of the sources.  No claim inspects the
fields, only whole records inside result lists. -/
structure CrateSearch where
  name : String
  max_version : String
  description : String
  downloads : Nat
deriving DecidableEq, Repr

/-- The successful search response: an ordered sequence of package records
(destructured as `CrateSearchResponse { crates }` in src/app.rs line 124). -/
structure CrateSearchResponse where
  crates : List CrateSearch
deriving DecidableEq, Repr

/-- The merged event stream consumed by `App::await_input`: the key events
produced by the input monitor plus the `Tick` heartbeat and the `Results`
variant carrying a completed search response (the variants matched by
src/app.rs lines 174-300). -/
inductive InputEvent where
  | Char (c : Char)
  | Esc
  | Enter
  | Backspace
  | Tick
  | Results (results : CrateSearchResponse)
deriving DecidableEq, Repr

/-- The parameters of one call to `CrateSearcher::search_sorted` as issued by
`App::do_search` (src/app.rs lines 304-308): the query string, the 1-based
page, and the sort order. -/
structure SearchRequest where
  query : String
  page : Nat
  sort : CratesSort
deriving DecidableEq, Repr

/-- The sort-picker state `SortingField` (src/app.rs lines 24-28). -/
structure SortingField where
  selection : Nat
  items : List CratesSort
  strs : List String
deriving DecidableEq, Repr

/-- `impl From<&CratesSort> for SortingField` (src/app.rs lines 30-48):
the items list enumerates every `CratesSort` variant in order, and the
selection is the position of the given sort in that list.  The source's
`position(..).unwrap()` always succeeds because the list is exhaustive, and
then agrees with `List.findIdx`. -/
def SortingField.fromSort (sort : CratesSort) : SortingField :=
  let items : List CratesSort :=
    [CratesSort.Relevance, CratesSort.AllTimeDownload, CratesSort.RecentDownload,
     CratesSort.RecentUpdate, CratesSort.NewlyAdded]
  let selection := items.findIdx (fun item => sort == item)
  let strs := items.map CratesSort.label
  { selection := selection, items := items, strs := strs }

/-- `AppMode` (src/app.rs lines 50-54). -/
inductive AppMode where
  | Normal
  | Input (msg : String) (ticks : Nat)
  | Sorting (field : SortingField)
deriving DecidableEq, Repr

/-- The application state `App` (src/app.rs lines 56-66), without the
`input_rx` channel endpoint and the `client` HTTP handle. -/
structure App where
  crates : Option CrateSearchResponse
  quit : Bool
  inpt : Option String
  page : Nat
  sort : CratesSort
  mode : AppMode
  selection : Option Nat
deriving DecidableEq, Repr

/-- `App::new` (src/app.rs lines 69-81). -/
def App.new : App where
  crates := none
  quit := false
  inpt := some ""
  page := 1
  sort := CratesSort.Relevance
  mode := AppMode.Input "" 0
  selection := none

/-- `App::do_search` (src/app.rs lines 304-308): reads the current query,
page and sort, and issues one search request.  `none` models the panic of
`search.unwrap()` when `inpt` is `None`. -/
def App.do_search (a : App) : Option SearchRequest :=
  a.inpt.map (fun search => { query := search, page := a.page, sort := a.sort })

/-- The `InputEvent::Results` arm, identical in all three modes
(src/app.rs lines 222-233, 252-263, 286-297): store the response, then set
the selection to `Some(0)` exactly when the stored response is non-empty. -/
def App.applyResults (a : App) (results : CrateSearchResponse) : App :=
  let a := { a with crates := some results }
  { a with selection :=
      match a.crates with
      | some crates => if crates.crates.length > 0 then some 0 else none
      | none => none }

/-- The body of `App::await_input` (src/app.rs lines 172-302) for one
received event: the new state plus the list of search requests issued while
processing the event.  `none` models a panic: `u32` overflow of `page += 1`,
`usize` underflow of `crates.len() - 1`, the out-of-bounds index
`items[selection]`, or `unwrap` of a missing query in `do_search`. -/
def App.await_input (a : App) (inpt : InputEvent) : Option (App × List SearchRequest) :=
  match a.mode with
  | AppMode.Normal =>
    match inpt with
    | InputEvent.Char c =>
      if c = 'f' ∨ c = 'F' then
        some ({ a with mode := AppMode.Input "" 0 }, [])
      else if c = 'q' ∨ c = 'Q' then
        some ({ a with quit := true }, [])
      else if c = 'n' ∨ c = 'N' then
        if ((a.crates.map (fun resp => resp.crates.length)).getD 0) > 0 then
          if a.page + 1 < u32Size then
            let a' := { a with page := a.page + 1 }
            (a'.do_search).map (fun req => (a', [req]))
          else none
        else some (a, [])
      else if c = 'p' ∨ c = 'P' then
        if a.page > 1 then
          let a' := { a with page := a.page - 1 }
          (a'.do_search).map (fun req => (a', [req]))
        else some (a, [])
      else if c = 'j' ∨ c = 'J' then
        match a.selection with
        | some selection =>
          match a.crates with
          | some resp =>
            if resp.crates.length = 0 then none
            else
              some ({ a with selection := some (min (selection + 1) (resp.crates.length - 1)) }, [])
          | none => some ({ a with selection := some (min (selection + 1) 0) }, [])
        | none => some (a, [])
      else if c = 'k' ∨ c = 'K' then
        match a.selection with
        | some selection =>
          if selection > 0 then some ({ a with selection := some (selection - 1) }, [])
          else some (a, [])
        | none => some (a, [])
      else if c = 's' ∨ c = 'S' then
        some ({ a with mode := AppMode.Sorting (SortingField.fromSort a.sort) }, [])
      else if c = 'c' ∨ c = 'C' then
        some (a, [])
      else some (a, [])
    | InputEvent.Results results => some (a.applyResults results, [])
    | _ => some (a, [])
  | AppMode.Input msg ticks =>
    match inpt with
    | InputEvent.Esc => some ({ a with mode := AppMode.Normal }, [])
    | InputEvent.Enter =>
      let a' := { a with page := 1, inpt := some msg }
      (a'.do_search).map (fun req => ({ a' with mode := AppMode.Normal }, [req]))
    | InputEvent.Backspace =>
      some ({ a with mode := AppMode.Input (msg.dropRight 1) ticks }, [])
    | InputEvent.Char c => some ({ a with mode := AppMode.Input (msg.push c) ticks }, [])
    | InputEvent.Tick =>
      some ({ a with mode := AppMode.Input msg ((ticks + 1) % u64Size) }, [])
    | InputEvent.Results results => some (a.applyResults results, [])
  | AppMode.Sorting field =>
    match inpt with
    | InputEvent.Esc => some ({ a with mode := AppMode.Normal }, [])
    | InputEvent.Enter =>
      match field.items.get? field.selection with
      | some s =>
        let a' := { a with sort := s, page := 1, mode := AppMode.Normal }
        (a'.do_search).map (fun req => (a', [req]))
      | none => none
    | InputEvent.Char c =>
      if c = 'k' ∨ c = 'K' then
        some ({ a with mode := AppMode.Sorting { field with selection := field.selection - 1 } }, [])
      else if c = 'j' ∨ c = 'J' then
        some ({ a with
                  mode := AppMode.Sorting { field with selection := min (field.selection + 1) 4 } },
              [])
      else some (a, [])
    | InputEvent.Results results => some (a.applyResults results, [])
    | _ => some (a, [])

/-- Apply one key press, keeping the state unchanged if the step panics.
On the concrete states used below no panic occurs, so this coincides with
`await_input`. -/
def App.pressChar (a : App) (c : Char) : App :=
  ((a.await_input (InputEvent.Char c)).map Prod.fst).getD a

/-- Apply a sequence of key presses with `App.pressChar`. -/
def App.pressAll (a : App) (cs : List Char) : App :=
  cs.foldl App.pressChar a

/-- The reachable application states: the startup state, closed under
non-panicking `await_input` steps. -/
inductive Reachable : App → Prop where
  | init : Reachable App.new
  | step (a a' : App) (e : InputEvent) (reqs : List SearchRequest) :
      Reachable a → a.await_input e = some (a', reqs) → Reachable a'

/-- The selection/results consistency invariant: the selection is present
exactly when a non-empty result set is stored, and then lies inside it. -/
def selInv (a : App) : Prop :=
  (a.selection.isSome ↔ ∃ resp, a.crates = some resp ∧ 0 < resp.crates.length) ∧
  (∀ i, a.selection = some i → ∀ resp, a.crates = some resp → i < resp.crates.length)

/-- The sort-picker invariant: in `Sorting` mode the options list has exactly
five entries and the selection is at most 4. -/
def sortingInv (a : App) : Prop :=
  ∀ field, a.mode = AppMode.Sorting field → field.items.length = 5 ∧ field.selection ≤ 4

/-- `ceil_div` (src/main.rs lines 30-38) on `u32`.  `none` models a panic:
the explicit divide-by-zero panic, or checked overflow of the intermediate
sum `a + b` (evaluated before the `- 1`). -/
def ceil_div (a b : Nat) : Option Nat :=
  if b = 0 then none
  else if a = 0 then some 0
  else if a + b < u32Size then some ((a + b - 1) / b) else none

/-- The remaining state invariants: the page is 1-based, the stored query is
present, and any sort-picker state is well formed. -/
def baseInv (a : App) : Prop := 1 ≤ a.page ∧ a.inpt.isSome ∧ sortingInv a

def demoCrate : CrateSearch :=
  { name := "serde", max_version := "1.0.219",
    description := "A generic serialization framework", downloads := 1000 }

def demoResp : CrateSearchResponse := { crates := [demoCrate] }

def emptyResp : CrateSearchResponse := { crates := [] }

def appNormal : App := { App.new with mode := AppMode.Normal }

def appSorting : App :=
  { appNormal with mode := AppMode.Sorting (SortingField.fromSort CratesSort.Relevance) }

def appTokio : App := { App.new with mode := AppMode.Input "tokio" 3 }

def appAbc : App := { App.new with mode := AppMode.Input "abc" 0 }

def appPage3 : App := { App.new with mode := AppMode.Normal, page := 3 }

def appAfterEnter : App := { App.new with page := 1, inpt := some "", mode := AppMode.Normal }

def appAfterSortEnter : App :=
  { appSorting with sort := CratesSort.Relevance, page := 1, mode := AppMode.Normal }

def appTokioAfter : App :=
  { appTokio with page := 1, inpt := some "tokio", mode := AppMode.Normal }

def demoReq : SearchRequest := { query := "tokio", page := 1, sort := CratesSort.Relevance }

example : ceil_div 7 2 = some 4 := by decide
example : ceil_div 8 2 = some 4 := by decide
example : ceil_div 0 5 = some 0 := by decide
example : ceil_div 3 0 = none := by decide

theorem await_input_results (a : App) (results : CrateSearchResponse) :
    a.await_input (InputEvent.Results results) = some (a.applyResults results, []) := by
  cases hm : a.mode <;> simp [App.await_input, hm]

theorem applyResults_selInv (a : App) (results : CrateSearchResponse) :
    selInv (a.applyResults results) := by
  constructor <;> simp only [App.applyResults] <;> split <;> simp_all [selInv]

set_option maxHeartbeats 1000000 in
theorem selInv_preserved (a a' : App) (e : InputEvent) (reqs : List SearchRequest)
    (hInv : selInv a) (h : a.await_input e = some (a', reqs)) : selInv a' := by
  obtain ⟨crates, quit, inpt, page, sort, mode, selection⟩ := a
  cases e with
  | Results results =>
    rw [await_input_results] at h
    simp only [Option.some.injEq, Prod.mk.injEq] at h
    obtain ⟨rfl, rfl⟩ := h
    exact applyResults_selInv _ _
  | Char c =>
    cases mode <;> cases inpt <;> cases selection <;> cases crates <;>
      unfold App.await_input at h <;>
      dsimp only [App.do_search, Option.map, Option.getD] at h <;>
      (try split_ifs at h) <;>
      simp only [Option.some.injEq, Prod.mk.injEq, reduceCtorEq] at h <;>
      (try obtain ⟨rfl, rfl⟩ := h) <;>
      simp_all [selInv] <;>
      omega
  | Esc =>
    cases mode <;> unfold App.await_input at h <;> dsimp only at h <;>
      simp only [Option.some.injEq, Prod.mk.injEq] at h <;>
      (obtain ⟨rfl, rfl⟩ := h) <;> simp_all [selInv]
  | Enter =>
    cases mode with
    | Normal =>
      unfold App.await_input at h
      dsimp only at h
      simp only [Option.some.injEq, Prod.mk.injEq] at h
      obtain ⟨rfl, rfl⟩ := h
      simp_all [selInv]
    | Input msg ticks =>
      unfold App.await_input at h
      dsimp only [App.do_search, Option.map] at h
      simp only [Option.some.injEq, Prod.mk.injEq] at h
      obtain ⟨rfl, rfl⟩ := h
      simp_all [selInv]
    | Sorting field =>
      unfold App.await_input at h
      dsimp only at h
      cases hg : field.items.get? field.selection with
      | none =>
        rw [hg] at h
        exact Option.noConfusion h
      | some s =>
        rw [hg] at h
        cases inpt with
        | none => exact Option.noConfusion h
        | some q =>
          dsimp only [App.do_search, Option.map] at h
          simp only [Option.some.injEq, Prod.mk.injEq] at h
          obtain ⟨rfl, rfl⟩ := h
          simp_all [selInv]
  | Backspace =>
    cases mode <;> unfold App.await_input at h <;> dsimp only at h <;>
      simp only [Option.some.injEq, Prod.mk.injEq] at h <;>
      (obtain ⟨rfl, rfl⟩ := h) <;> simp_all [selInv]
  | Tick =>
    cases mode <;> unfold App.await_input at h <;> dsimp only at h <;>
      simp only [Option.some.injEq, Prod.mk.injEq] at h <;>
      (obtain ⟨rfl, rfl⟩ := h) <;> simp_all [selInv]

theorem fromSort_items_length (s : CratesSort) :
    (SortingField.fromSort s).items.length = 5 := by
  rfl

theorem fromSort_selection_le (s : CratesSort) :
    (SortingField.fromSort s).selection ≤ 4 := by
  cases s <;> decide

theorem fromSort_get_selection (s : CratesSort) :
    (SortingField.fromSort s).items.get? (SortingField.fromSort s).selection = some s := by
  cases s <;> decide

set_option maxHeartbeats 1000000 in
theorem baseInv_preserved (a a' : App) (e : InputEvent) (reqs : List SearchRequest)
    (hInv : baseInv a) (h : a.await_input e = some (a', reqs)) : baseInv a' := by
  obtain ⟨crates, quit, inpt, page, sort, mode, selection⟩ := a
  cases e with
  | Results results =>
    rw [await_input_results] at h
    simp only [Option.some.injEq, Prod.mk.injEq] at h
    obtain ⟨rfl, rfl⟩ := h
    simp_all [baseInv, sortingInv, App.applyResults]
  | Char c =>
    cases mode <;> cases inpt <;> cases selection <;> cases crates <;>
      unfold App.await_input at h <;>
      dsimp only [App.do_search, Option.map, Option.getD] at h <;>
      (try split_ifs at h) <;>
      simp only [Option.some.injEq, Prod.mk.injEq, reduceCtorEq] at h <;>
      (try obtain ⟨rfl, rfl⟩ := h) <;>
      simp_all [baseInv, sortingInv, fromSort_items_length, fromSort_selection_le] <;>
      omega
  | Esc =>
    cases mode <;> unfold App.await_input at h <;> dsimp only at h <;>
      simp only [Option.some.injEq, Prod.mk.injEq] at h <;>
      (obtain ⟨rfl, rfl⟩ := h) <;> simp_all [baseInv, sortingInv]
  | Enter =>
    cases mode with
    | Normal =>
      unfold App.await_input at h
      dsimp only at h
      simp only [Option.some.injEq, Prod.mk.injEq] at h
      obtain ⟨rfl, rfl⟩ := h
      simp_all [baseInv, sortingInv]
    | Input msg ticks =>
      unfold App.await_input at h
      dsimp only [App.do_search, Option.map] at h
      simp only [Option.some.injEq, Prod.mk.injEq] at h
      obtain ⟨rfl, rfl⟩ := h
      simp_all [baseInv, sortingInv]
    | Sorting field =>
      unfold App.await_input at h
      dsimp only at h
      cases hg : field.items.get? field.selection with
      | none =>
        rw [hg] at h
        exact Option.noConfusion h
      | some s =>
        rw [hg] at h
        cases inpt with
        | none => exact Option.noConfusion h
        | some q =>
          dsimp only [App.do_search, Option.map] at h
          simp only [Option.some.injEq, Prod.mk.injEq] at h
          obtain ⟨rfl, rfl⟩ := h
          simp_all [baseInv, sortingInv]
  | Backspace =>
    cases mode <;> unfold App.await_input at h <;> dsimp only at h <;>
      simp only [Option.some.injEq, Prod.mk.injEq] at h <;>
      (obtain ⟨rfl, rfl⟩ := h) <;> simp_all [baseInv, sortingInv]
  | Tick =>
    cases mode <;> unfold App.await_input at h <;> dsimp only at h <;>
      simp only [Option.some.injEq, Prod.mk.injEq] at h <;>
      (obtain ⟨rfl, rfl⟩ := h) <;> simp_all [baseInv, sortingInv]

theorem reachable_selInv (a : App) (h : Reachable a) : selInv a := by
  induction h with
  | init => constructor <;> simp [App.new, selInv]
  | step a a' e reqs hr hstep ih => exact selInv_preserved a a' e reqs ih hstep

theorem reachable_baseInv (a : App) (h : Reachable a) : baseInv a := by
  induction h with
  | init => refine ⟨le_refl 1, ?_, ?_⟩ <;> simp [App.new, sortingInv]
  | step a a' e reqs hr hstep ih => exact baseInv_preserved a a' e reqs ih hstep

set_option maxHeartbeats 1000000 in
theorem requests_consistent (a a' : App) (e : InputEvent) (reqs : List SearchRequest)
    (h : a.await_input e = some (a', reqs)) :
    ∀ req ∈ reqs, a'.inpt = some req.query ∧ req.page = a'.page ∧ req.sort = a'.sort := by
  obtain ⟨crates, quit, inpt, page, sort, mode, selection⟩ := a
  cases e with
  | Results results =>
    rw [await_input_results] at h
    simp only [Option.some.injEq, Prod.mk.injEq] at h
    obtain ⟨rfl, rfl⟩ := h
    simp
  | Char c =>
    cases mode <;> cases inpt <;> cases selection <;> cases crates <;>
      unfold App.await_input at h <;>
      dsimp only [App.do_search, Option.map, Option.getD] at h <;>
      (try split_ifs at h) <;>
      simp only [Option.some.injEq, Prod.mk.injEq, reduceCtorEq] at h <;>
      (try obtain ⟨rfl, rfl⟩ := h) <;>
      simp_all
  | Esc =>
    cases mode <;> unfold App.await_input at h <;> dsimp only at h <;>
      simp only [Option.some.injEq, Prod.mk.injEq] at h <;>
      (obtain ⟨rfl, rfl⟩ := h) <;> simp
  | Enter =>
    cases mode with
    | Normal =>
      unfold App.await_input at h
      dsimp only at h
      simp only [Option.some.injEq, Prod.mk.injEq] at h
      obtain ⟨rfl, rfl⟩ := h
      simp
    | Input msg ticks =>
      unfold App.await_input at h
      dsimp only [App.do_search, Option.map] at h
      simp only [Option.some.injEq, Prod.mk.injEq] at h
      obtain ⟨rfl, rfl⟩ := h
      simp
    | Sorting field =>
      unfold App.await_input at h
      dsimp only at h
      cases hg : field.items.get? field.selection with
      | none =>
        rw [hg] at h
        exact Option.noConfusion h
      | some s =>
        rw [hg] at h
        cases inpt with
        | none => exact Option.noConfusion h
        | some q =>
          dsimp only [App.do_search, Option.map] at h
          simp only [Option.some.injEq, Prod.mk.injEq] at h
          obtain ⟨rfl, rfl⟩ := h
          simp
  | Backspace =>
    cases mode <;> unfold App.await_input at h <;> dsimp only at h <;>
      simp only [Option.some.injEq, Prod.mk.injEq] at h <;>
      (obtain ⟨rfl, rfl⟩ := h) <;> simp
  | Tick =>
    cases mode <;> unfold App.await_input at h <;> dsimp only at h <;>
      simp only [Option.some.injEq, Prod.mk.injEq] at h <;>
      (obtain ⟨rfl, rfl⟩ := h) <;> simp

theorem input_enter_eq (a : App) (msg : String) (ticks : Nat)
    (h : a.mode = AppMode.Input msg ticks) :
    a.await_input InputEvent.Enter =
      some ({ a with page := 1, inpt := some msg, mode := AppMode.Normal },
            [{ query := msg, page := 1, sort := a.sort }]) := by
  obtain ⟨crates, quit, inpt, page, sort, mode, selection⟩ := a
  subst h
  rfl

theorem input_escape_eq (a : App) (msg : String) (ticks : Nat)
    (h : a.mode = AppMode.Input msg ticks) :
    a.await_input InputEvent.Esc = some ({ a with mode := AppMode.Normal }, []) := by
  obtain ⟨crates, quit, inpt, page, sort, mode, selection⟩ := a
  subst h
  rfl

theorem empty_results_eq (a : App) (results : CrateSearchResponse)
    (h : results.crates = []) :
    a.await_input (InputEvent.Results results) =
      some ({ a with crates := some results, selection := none }, []) := by
  rw [await_input_results]
  simp [App.applyResults, h]

theorem prev_page_eq (a : App) (c : Char) (q : String)
    (hm : a.mode = AppMode.Normal) (hc : c = 'p' ∨ c = 'P') (hq : a.inpt = some q) :
    (1 < a.page →
      a.await_input (InputEvent.Char c) =
        some ({ a with page := a.page - 1 },
              [{ query := q, page := a.page - 1, sort := a.sort }])) ∧
    (a.page = 1 → a.await_input (InputEvent.Char c) = some (a, [])) := by
  obtain ⟨crates, quit, inpt, page, sort, mode, selection⟩ := a
  subst hm
  cases hq
  constructor
  · intro hp
    rcases hc with rfl | rfl <;>
      (unfold App.await_input
       dsimp only [App.do_search, Option.map, Option.getD]
       rw [if_neg (by decide), if_neg (by decide), if_neg (by decide), if_pos (by decide),
         if_pos hp])
  · intro hp
    subst hp
    rcases hc with rfl | rfl <;> rfl

theorem enter_sorting_eq (a : App) (c : Char)
    (hm : a.mode = AppMode.Normal) (hc : c = 's' ∨ c = 'S') :
    a.await_input (InputEvent.Char c) =
      some ({ a with mode := AppMode.Sorting (SortingField.fromSort a.sort) }, []) := by
  obtain ⟨crates, quit, inpt, page, sort, mode, selection⟩ := a
  subst hm
  rcases hc with rfl | rfl <;> rfl

theorem sorting_k_eq (a : App) (field : SortingField) (c : Char)
    (hm : a.mode = AppMode.Sorting field) (hc : c = 'k' ∨ c = 'K') :
    a.await_input (InputEvent.Char c) =
      some ({ a with mode := AppMode.Sorting { field with selection := field.selection - 1 } },
            []) := by
  obtain ⟨crates, quit, inpt, page, sort, mode, selection⟩ := a
  subst hm
  rcases hc with rfl | rfl <;> rfl

theorem sorting_j_eq (a : App) (field : SortingField) (c : Char)
    (hm : a.mode = AppMode.Sorting field) (hc : c = 'j' ∨ c = 'J') :
    a.await_input (InputEvent.Char c) =
      some ({ a with
                mode := AppMode.Sorting { field with selection := min (field.selection + 1) 4 } },
            []) := by
  obtain ⟨crates, quit, inpt, page, sort, mode, selection⟩ := a
  subst hm
  rcases hc with rfl | rfl <;> rfl

theorem sorting_enter_eq (a : App) (field : SortingField) (s : CratesSort) (q : String)
    (hm : a.mode = AppMode.Sorting field) (hg : field.items.get? field.selection = some s)
    (hq : a.inpt = some q) :
    a.await_input InputEvent.Enter =
      some ({ a with sort := s, page := 1, mode := AppMode.Normal },
            [{ query := q, page := 1, sort := s }]) := by
  obtain ⟨crates, quit, inpt, page, sort, mode, selection⟩ := a
  subst hm
  cases hq
  unfold App.await_input
  dsimp only
  rw [hg]
  rfl

theorem reachable_appNormal : Reachable appNormal :=
  Reachable.step App.new appNormal InputEvent.Esc [] Reachable.init (by rfl)

theorem reachable_appSorting : Reachable appSorting :=
  Reachable.step appNormal appSorting (InputEvent.Char 's') [] reachable_appNormal (by rfl)

/-- C1: for every reachable `App` state, the selection index is `some` if and
only if the stored result set (`crates`) is `some` and non-empty, and a
present selection `some i` satisfies `i < length` of the stored results
(`selInv`); every event processed by `await_input` preserves `selInv`; and
processing a `Results` event with a non-empty record list sets the selection
to `some 0`. -/
theorem C1_selection_results_invariant :
    (∀ a : App, Reachable a → selInv a) ∧
    (∀ (a a' : App) (e : InputEvent) (reqs : List SearchRequest),
      selInv a → a.await_input e = some (a', reqs) → selInv a') ∧
    (∀ (a a' : App) (reqs : List SearchRequest) (results : CrateSearchResponse),
      results.crates ≠ [] →
      a.await_input (InputEvent.Results results) = some (a', reqs) →
      a'.selection = some 0) := by
  refine ⟨reachable_selInv, selInv_preserved, ?_⟩
  intro a a' reqs results hne h
  rw [await_input_results] at h
  simp only [Option.some.injEq, Prod.mk.injEq] at h
  obtain ⟨rfl, rfl⟩ := h
  have hpos : 0 < results.crates.length := List.length_pos.mpr hne
  simp [App.applyResults, hpos]

/-- Witness for C1: the invariant at the startup state, its preservation
across one concrete `Results` step, and the selection set to `some 0` by a
concrete one-record response. -/
theorem C1_selection_results_invariant_witness :
    selInv App.new ∧ selInv (App.new.applyResults demoResp) ∧
    (App.new.applyResults demoResp).selection = some 0 :=
  ⟨C1_selection_results_invariant.1 App.new Reachable.init,
   C1_selection_results_invariant.2.1 App.new (App.new.applyResults demoResp)
     (InputEvent.Results demoResp) [] (by simp [selInv, App.new]) (by rfl),
   C1_selection_results_invariant.2.2 App.new (App.new.applyResults demoResp) [] demoResp
     (by decide) (by rfl)⟩

/-- C2: in `Input` mode with buffer `msg` and current sort `a.sort`,
processing `Enter` sets the stored query to `msg`, resets the page to
exactly 1, switches the mode to `Normal`, and issues exactly one search
request with parameters `(query = msg, page = 1, sort = a.sort)`. -/
theorem C2_input_enter_commits_search (a : App) (msg : String) (ticks : Nat)
    (h : a.mode = AppMode.Input msg ticks) :
    a.await_input InputEvent.Enter =
      some ({ a with page := 1, inpt := some msg, mode := AppMode.Normal },
            [{ query := msg, page := 1, sort := a.sort }]) :=
  input_enter_eq a msg ticks h

/-- Witness for C2 at the concrete state whose `Input` buffer is
`"tokio"`. -/
theorem C2_input_enter_commits_search_witness :
    appTokio.await_input InputEvent.Enter =
      some ({ appTokio with page := 1, inpt := some "tokio", mode := AppMode.Normal },
            [{ query := "tokio", page := 1, sort := appTokio.sort }]) :=
  C2_input_enter_commits_search appTokio "tokio" 3 (by rfl)

/-- C3: in every reachable state `page ≥ 1`; and the two transitions that
change the query (`Enter` in `Input` mode) or the sort order (`Enter` in
`Sorting` mode) both set the page to exactly 1. -/
theorem C3_page_invariant :
    (∀ a : App, Reachable a → 1 ≤ a.page) ∧
    (∀ (a : App) (msg : String) (ticks : Nat) (a' : App) (reqs : List SearchRequest),
      a.mode = AppMode.Input msg ticks →
      a.await_input InputEvent.Enter = some (a', reqs) → a'.page = 1) ∧
    (∀ (a : App) (field : SortingField) (a' : App) (reqs : List SearchRequest),
      a.mode = AppMode.Sorting field →
      a.await_input InputEvent.Enter = some (a', reqs) → a'.page = 1) := by
  refine ⟨fun a h => (reachable_baseInv a h).1, ?_, ?_⟩
  · intro a msg ticks a' reqs hm h
    rw [input_enter_eq a msg ticks hm] at h
    simp only [Option.some.injEq, Prod.mk.injEq] at h
    obtain ⟨rfl, rfl⟩ := h
    rfl
  · intro a field a' reqs hm h
    obtain ⟨crates, quit, inpt, page, sort, mode, selection⟩ := a
    subst hm
    unfold App.await_input at h
    dsimp only at h
    cases hg : field.items.get? field.selection with
    | none => rw [hg] at h; exact Option.noConfusion h
    | some s =>
      rw [hg] at h
      cases inpt with
      | none => exact Option.noConfusion h
      | some q =>
        dsimp only [App.do_search, Option.map] at h
        simp only [Option.some.injEq, Prod.mk.injEq] at h
        obtain ⟨rfl, rfl⟩ := h
        rfl

/-- Witness for C3: the page bound at the startup state and the page reset
after concrete `Enter` steps from `Input` and `Sorting` mode. -/
theorem C3_page_invariant_witness :
    1 ≤ App.new.page ∧ appAfterEnter.page = 1 ∧ appAfterSortEnter.page = 1 :=
  ⟨C3_page_invariant.1 App.new Reachable.init,
   C3_page_invariant.2.1 App.new "" 0 appAfterEnter
     [{ query := "", page := 1, sort := CratesSort.Relevance }] (by rfl) (by rfl),
   C3_page_invariant.2.2 appSorting (SortingField.fromSort CratesSort.Relevance)
     appAfterSortEnter [{ query := "", page := 1, sort := CratesSort.Relevance }]
     (by rfl) (by rfl)⟩

/-- C4: every reachable `Sorting`-mode state has exactly 5 options and
selection at most 4; entering `Sorting` mode via the s/S key seeds the picker
from the current sort, whose selection indexes that sort in the options list;
k/K decrements the selection saturating at 0 and j/J increments it clamped at
4; concretely, pressing k at selection 0 changes nothing, four j presses from
selection 0 reach 4, and a fifth j press leaves it at 4. -/
theorem C4_sorting_mode_invariant :
    (∀ (a : App), Reachable a → ∀ (field : SortingField),
      a.mode = AppMode.Sorting field → field.items.length = 5 ∧ field.selection ≤ 4) ∧
    (∀ (a : App) (c : Char), a.mode = AppMode.Normal → (c = 's' ∨ c = 'S') →
      a.await_input (InputEvent.Char c) =
        some ({ a with mode := AppMode.Sorting (SortingField.fromSort a.sort) }, [])) ∧
    (∀ s : CratesSort,
      (SortingField.fromSort s).items.get? (SortingField.fromSort s).selection = some s) ∧
    (∀ (a : App) (field : SortingField) (c : Char),
      a.mode = AppMode.Sorting field → (c = 'k' ∨ c = 'K') →
      a.await_input (InputEvent.Char c) =
        some ({ a with mode := AppMode.Sorting { field with selection := field.selection - 1 } },
              [])) ∧
    (∀ (a : App) (field : SortingField) (c : Char),
      a.mode = AppMode.Sorting field → (c = 'j' ∨ c = 'J') →
      a.await_input (InputEvent.Char c) =
        some ({ a with
                  mode := AppMode.Sorting { field with selection := min (field.selection + 1) 4 } },
              [])) ∧
    appSorting.pressChar 'k' = appSorting ∧
    (appSorting.pressAll ['j', 'j', 'j', 'j']).mode =
      AppMode.Sorting { SortingField.fromSort CratesSort.Relevance with selection := 4 } ∧
    appSorting.pressAll ['j', 'j', 'j', 'j', 'j'] = appSorting.pressAll ['j', 'j', 'j', 'j'] :=
  ⟨fun a h => (reachable_baseInv a h).2.2,
   enter_sorting_eq, fromSort_get_selection, sorting_k_eq, sorting_j_eq,
   by decide, by decide, by decide⟩

/-- Witness for C4 at the concrete reachable sort-picker state over the
default sort. -/
theorem C4_sorting_mode_invariant_witness :
    ((SortingField.fromSort CratesSort.Relevance).items.length = 5 ∧
      (SortingField.fromSort CratesSort.Relevance).selection ≤ 4) ∧
    appNormal.await_input (InputEvent.Char 's') =
      some ({ appNormal with mode := AppMode.Sorting (SortingField.fromSort appNormal.sort) },
            []) ∧
    appSorting.await_input (InputEvent.Char 'j') =
      some ({ appSorting with
                mode := AppMode.Sorting
                  { SortingField.fromSort CratesSort.Relevance with
                      selection :=
                        min ((SortingField.fromSort CratesSort.Relevance).selection + 1) 4 } },
            []) :=
  ⟨C4_sorting_mode_invariant.1 appSorting reachable_appSorting
     (SortingField.fromSort CratesSort.Relevance) (by rfl),
   C4_sorting_mode_invariant.2.1 appNormal 's' (by rfl) (Or.inl rfl),
   C4_sorting_mode_invariant.2.2.2.2.1 appSorting (SortingField.fromSort CratesSort.Relevance)
     'j' (by rfl) (Or.inl rfl)⟩

/-- C5: in any mode, processing a `Results` event whose record list is empty
stores `some` empty result set, clears the selection to `none`, and leaves
the mode (and every other field) unchanged. -/
theorem C5_empty_results_clear_selection (a : App) (results : CrateSearchResponse)
    (h : results.crates = []) :
    a.await_input (InputEvent.Results results) =
      some ({ a with crates := some results, selection := none }, []) :=
  empty_results_eq a results h

/-- Witness for C5: the empty-response event applied at an `Input`-mode and
a `Sorting`-mode state. -/
theorem C5_empty_results_clear_selection_witness :
    App.new.await_input (InputEvent.Results emptyResp) =
      some ({ App.new with crates := some emptyResp, selection := none }, []) ∧
    appSorting.await_input (InputEvent.Results emptyResp) =
      some ({ appSorting with crates := some emptyResp, selection := none }, []) :=
  ⟨C5_empty_results_clear_selection App.new emptyResp (by rfl),
   C5_empty_results_clear_selection appSorting emptyResp (by rfl)⟩

/-- C6 fails as stated: the startup state built by `App::new` satisfies
every claimed field value except the mode, which is `Input "" 0`
(src/app.rs line 77), not `Normal`. -/
theorem C6_startup_counterexample :
    ¬ (App.new.inpt = some "" ∧ App.new.page = 1 ∧ App.new.sort = CratesSort.Relevance ∧
       App.new.crates = none ∧ App.new.selection = none ∧ App.new.quit = false ∧
       App.new.mode = AppMode.Normal) := by
  decide

/-- C6 amended: the startup state has an empty query, page 1, the default
`Relevance` sort, no results, no selection and the quit flag unset, and is in
`Input` mode with an empty buffer and tick count 0. -/
theorem C6_startup_state :
    App.new.inpt = some "" ∧ App.new.page = 1 ∧ App.new.sort = CratesSort.Relevance ∧
    App.new.crates = none ∧ App.new.selection = none ∧ App.new.quit = false ∧
    App.new.mode = AppMode.Input "" 0 := by
  decide

/-- C7: in `Normal` mode (with the stored query present, as it is in every
reachable state), p/P with `page > 1` decrements the page by exactly 1 and
issues exactly one search request, while p/P with `page = 1` leaves the whole
state unchanged and issues no request. -/
theorem C7_prev_page (a : App) (c : Char) (q : String)
    (hm : a.mode = AppMode.Normal) (hc : c = 'p' ∨ c = 'P') (hq : a.inpt = some q) :
    (1 < a.page →
      a.await_input (InputEvent.Char c) =
        some ({ a with page := a.page - 1 },
              [{ query := q, page := a.page - 1, sort := a.sort }])) ∧
    (a.page = 1 → a.await_input (InputEvent.Char c) = some (a, [])) :=
  prev_page_eq a c q hm hc hq

/-- Witness for C7 at concrete `Normal`-mode states with page 3 and
page 1. -/
theorem C7_prev_page_witness :
    appPage3.await_input (InputEvent.Char 'p') =
      some ({ appPage3 with page := appPage3.page - 1 },
            [{ query := "", page := appPage3.page - 1, sort := appPage3.sort }]) ∧
    appNormal.await_input (InputEvent.Char 'P') = some (appNormal, []) :=
  ⟨(C7_prev_page appPage3 'p' "" (by rfl) (Or.inl rfl) (by rfl)).1 (by decide),
   (C7_prev_page appNormal 'P' "" (by rfl) (Or.inr rfl) (by rfl)).2 (by rfl)⟩

/-- C8: in `Input` mode, `Escape` switches the mode to `Normal` and leaves
the query, page, sort, results and selection unchanged; the typed buffer is
discarded without being committed. -/
theorem C8_input_escape_discards (a : App) (msg : String) (ticks : Nat)
    (h : a.mode = AppMode.Input msg ticks) :
    a.await_input InputEvent.Esc = some ({ a with mode := AppMode.Normal }, []) :=
  input_escape_eq a msg ticks h

/-- Witness for C8 at the concrete state whose `Input` buffer is
`"abc"`. -/
theorem C8_input_escape_discards_witness :
    appAbc.await_input InputEvent.Esc = some ({ appAbc with mode := AppMode.Normal }, []) :=
  C8_input_escape_discards appAbc "abc" 0 (by rfl)

/-- C9: in every reachable state the stored query is present, so
`do_search` never fails; and every search request issued by an `await_input`
step carries exactly the query, page and sort order of the state as they
stand after that transition's own updates. -/
theorem C9_search_request_consistency :
    (∀ a : App, Reachable a → a.inpt.isSome ∧ (a.do_search).isSome) ∧
    (∀ (a a' : App) (e : InputEvent) (reqs : List SearchRequest),
      a.await_input e = some (a', reqs) →
      ∀ req ∈ reqs, a'.inpt = some req.query ∧ req.page = a'.page ∧ req.sort = a'.sort) := by
  refine ⟨?_, requests_consistent⟩
  intro a h
  have hb := (reachable_baseInv a h).2.1
  refine ⟨hb, ?_⟩
  unfold App.do_search
  cases hi : a.inpt with
  | none => rw [hi] at hb; exact Bool.noConfusion hb
  | some q => rfl

/-- Witness for C9: the query presence at startup, and the request issued
by a concrete `Enter` step matching the resulting state's fields. -/
theorem C9_search_request_consistency_witness :
    (App.new.inpt.isSome ∧ (App.new.do_search).isSome) ∧
    appTokioAfter.inpt = some demoReq.query ∧
    demoReq.page = appTokioAfter.page ∧ demoReq.sort = appTokioAfter.sort :=
  ⟨C9_search_request_consistency.1 App.new Reachable.init,
   C9_search_request_consistency.2 appTokio appTokioAfter
     InputEvent.Enter [demoReq] (by rfl) demoReq (by simp)⟩

/-- C10 fails as stated at `a = 2 ^ 32 - 1`, `b = 1`: the hypotheses
`b > 0` and `a + b - 1 ≤ 2 ^ 32 - 1` hold, yet `ceil_div` does not return the
ceiling: the intermediate checked sum `a + b` overflows `u32`, a panic
(`none`). -/
theorem C10_ceil_div_counterexample :
    0 < (1 : Nat) ∧ (2 ^ 32 - 1) + 1 - 1 ≤ 2 ^ 32 - 1 ∧ ceil_div (2 ^ 32 - 1) 1 = none := by
  refine ⟨Nat.one_pos, le_refl _, ?_⟩
  rfl

/-- C10 amended: for `u32` inputs with `b > 0` and `a + b < 2 ^ 32` (one
tighter than claimed, so that the intermediate sum `a + b` cannot overflow),
`ceil_div a b` returns `(a + b - 1) / b`, which is the ceiling of `a / b`:
it is an upper multiple bound and the least such; moreover `ceil_div x 0`
panics for every `x`, and `ceil_div 0 y = some 0` for every `y > 0`. -/
theorem C10_ceil_div_correct (a b : Nat) (ha : a < 2 ^ 32) (hb : 0 < b)
    (hab : a + b < 2 ^ 32) :
    (ceil_div a b = some ((a + b - 1) / b) ∧
      a ≤ b * ((a + b - 1) / b) ∧ b * ((a + b - 1) / b) < a + b ∧
      ∀ m, a ≤ b * m → (a + b - 1) / b ≤ m) ∧
    (∀ x : Nat, ceil_div x 0 = none) ∧
    (∀ y : Nat, 0 < y → ceil_div 0 y = some 0) := by
  have hb' : b ≠ 0 := Nat.pos_iff_ne_zero.mp hb
  have hdm := Nat.div_add_mod (a + b - 1) b
  have hmlt : (a + b - 1) % b < b := Nat.mod_lt _ hb
  refine ⟨⟨?_, ?_, ?_, ?_⟩, ?_, ?_⟩
  · unfold ceil_div
    rw [if_neg hb']
    by_cases hza : a = 0
    · subst hza
      rw [if_pos rfl]
      have : (0 + b - 1) / b = 0 := Nat.div_eq_of_lt (by omega)
      rw [this]
    · rw [if_neg hza, if_pos (show a + b < u32Size from hab)]
  · omega
  · omega
  · intro m hm
    by_contra hqm
    push_neg at hqm
    have h1 : m + 1 ≤ (a + b - 1) / b := hqm
    have h2 : b * (m + 1) ≤ b * ((a + b - 1) / b) := Nat.mul_le_mul_left b h1
    have h3 : b * (m + 1) = b * m + b := Nat.mul_succ b m
    omega
  · intro x
    unfold ceil_div
    rw [if_pos rfl]
  · intro y hy
    unfold ceil_div
    rw [if_neg (Nat.pos_iff_ne_zero.mp hy), if_pos rfl]

/-- Witness for C10 at `a = 5`, `b = 2` (ceiling 3), plus the zero-divisor
and zero-dividend cases. -/
theorem C10_ceil_div_correct_witness :
    ceil_div 5 2 = some ((5 + 2 - 1) / 2) ∧ ceil_div 7 0 = none ∧ ceil_div 0 3 = some 0 :=
  ⟨(C10_ceil_div_correct 5 2 (by norm_num) (by norm_num) (by norm_num)).1.1,
   (C10_ceil_div_correct 5 2 (by norm_num) (by norm_num) (by norm_num)).2.1 7,
   (C10_ceil_div_correct 5 2 (by norm_num) (by norm_num) (by norm_num)).2.2 3 (by norm_num)⟩
